import Mathlib

/-
Verification of the temporal-window analytics engine of the OSHIT data
visualisation backend.  Numbers stored as Python floats are modelled as
exact rationals (ℚ); timestamps are modelled at hour resolution as hours
since an epoch (ℤ); civil dates are modelled as days since the same epoch
(ℤ); Python dicts of metric values are modelled as association lists; SQL
aggregation over a row table is modelled as the corresponding list
aggregation over a list of rows.
-/

/-! ## Window resolver

Models the date-boundary computation of `calculate_staking` /
`calculate_ts` in `backend/routes/calculate.py` and `calculate_ts_sql` in
`backend/calculators/ts.py`:

    current_start = to_datetime(start_date).replace(hour=b)
    current_end   = (to_datetime(end_date) + 1 day).replace(hour=b)
    period_length = (end_date - start_date).days + 1
    prev_start    = current_start - period_length days
    prev_end      = current_start

`utcOffset` is the civil-to-UTC shift (8 for the UTC+8 deployment when the
window is expressed in UTC, 0 when it is compared against local
timestamps, as the route handlers do). -/

/-- Civil day `d` taken at local hour-of-day `b`, shifted to UTC by
`utcOffset`, in hours since the epoch. -/
def dayAtHour (d b utcOffset : ℤ) : ℤ := 24 * d + b - utcOffset

/-- Start of the current window for the inclusive civil range `[s, e]`. -/
def currentStart (s b utcOffset : ℤ) : ℤ := dayAtHour s b utcOffset

/-- Exclusive end of the current window: day `e + 1` at the boundary hour. -/
def currentEnd (e b utcOffset : ℤ) : ℤ := dayAtHour (e + 1) b utcOffset

/-- `period_length = (end_date - start_date).days + 1`, in hours. -/
def periodLengthHours (s e : ℤ) : ℤ := 24 * (e - s + 1)

/-- `prev_start = current_start - period_length`. -/
def prevStart (s e b utcOffset : ℤ) : ℤ :=
  currentStart s b utcOffset - periodLengthHours s e

/-- `prev_end = current_start`. -/
def prevEnd (s b utcOffset : ℤ) : ℤ := currentStart s b utcOffset

/-- Membership in a half-open interval `[lo, hi)`. -/
def inWindow (lo hi t : ℤ) : Prop := lo ≤ t ∧ t < hi

/-! ## Per-source delta functions

One `calc_delta` per calculator module.  `ts.py` / `shitcode.py` /
`defi.py` guard `prev is None or prev <= 0`; `revenue.py` / `pos.py` /
`staking.py` take floats and guard `prev <= 0`. -/

/-- `calc_delta` of `backend/calculators/ts.py` (`_merge_metrics`). -/
def tsCalcDelta (currVal : ℚ) (prevVal : Option ℚ) : Option ℚ :=
  match prevVal with
  | none => none
  | some p => if p ≤ 0 then none else some ((currVal - p) / p * 100)

/-- `calc_delta` of `backend/calculators/revenue.py` (`_compute_metrics`). -/
def revenueCalcDelta (current prev : ℚ) : Option ℚ :=
  if prev ≤ 0 then none else some ((current - prev) / prev * 100)

/-- `calc_delta` of `backend/calculators/pos.py` (`_compute_metrics`). -/
def posCalcDelta (current prev : ℚ) : Option ℚ :=
  if prev ≤ 0 then none else some ((current - prev) / prev * 100)

/-- `calc_delta` of `backend/calculators/staking.py` (`_compute_metrics`). -/
def stakingCalcDelta (current prev : ℚ) : Option ℚ :=
  if prev ≤ 0 then none else some ((current - prev) / prev * 100)

/-- `calc_delta` of `backend/calculators/shitcode.py` (`_compute_metrics`). -/
def shitcodeCalcDelta (current : ℚ) (prev : Option ℚ) : Option ℚ :=
  match prev with
  | none => none
  | some p => if p ≤ 0 then none else some ((current - p) / p * 100)

/-- `calc_delta` of `backend/calculators/defi.py` (`_compute_metrics`). -/
def defiCalcDelta (current : ℚ) (prev : Option ℚ) : Option ℚ :=
  match prev with
  | none => none
  | some p => if p ≤ 0 then none else some ((current - p) / p * 100)

/-! ## Delta engine (`_merge_metrics`, backend/calculators/ts.py)

A metric vector (Python dict) is an association list of metric name to
value; `dictGetD m k` is `m.get(k, 0)`.  The output triple
`(k, kCurrent, kPrev, kDelta)` models the three dict entries
`f"{key}Current"`, `f"{key}Prev"`, `f"{key}Delta"`. -/

/-- `m.get(k, 0)` on a metric dict. -/
def dictGetD (m : List (String × ℚ)) (k : String) : ℚ :=
  match m.find? (fun p => p.1 == k) with
  | some p => p.2
  | none => 0

/-- `_merge_metrics(current, prev)`:
`keys = current.keys() if current else prev.keys()`, then one
`{key}Current / {key}Prev / {key}Delta` triple per key. -/
def mergeMetrics (current prev : List (String × ℚ)) :
    List (String × ℚ × ℚ × Option ℚ) :=
  let keys := if current.isEmpty then prev.map Prod.fst else current.map Prod.fst
  keys.map (fun k =>
    (k, dictGetD current k, dictGetD prev k,
      tsCalcDelta (dictGetD current k) (some (dictGetD prev k))))

/-! ## Reward/claim (TS) source aggregator
(`_fetch_period_metrics_sql`, backend/calculators/ts.py)

One row of the `take_a_SHIT` table, restricted to the columns the
aggregation reads. -/

structure TsRow where
  toUser : String
  amount : ℚ
  solSentToTreasury : ℚ
  deriving DecidableEq

/-- `amount IN (500, 1500)` — a normal TS claim. -/
def isClaimAmount (a : ℚ) : Bool := a == 500 || a == 1500

/-- `amount IN (50, 150)` — a tier-1 referral reward. -/
def isRef1Amount (a : ℚ) : Bool := a == 50 || a == 150

/-- `amount IN (25, 75)` — a tier-2 referral reward. -/
def isRef2Amount (a : ℚ) : Bool := a == 25 || a == 75

/-- `amount NOT IN (500, 1500, 50, 150, 25, 75)` — a lucky draw. -/
def isDrawAmount (a : ℚ) : Bool :=
  !(a == 500 || a == 1500 || a == 50 || a == 150 || a == 25 || a == 75)

/-- `COUNT(CASE WHEN amount IN (500, 1500) THEN 1 END)`. -/
def tsClaimCount (rows : List TsRow) : ℕ :=
  rows.countP (fun r => isClaimAmount r.amount)

/-- `COUNT(CASE WHEN amount IN (50, 150) THEN 1 END)`. -/
def ref1Count (rows : List TsRow) : ℕ :=
  rows.countP (fun r => isRef1Amount r.amount)

/-- `COUNT(CASE WHEN amount IN (25, 75) THEN 1 END)`. -/
def ref2Count (rows : List TsRow) : ℕ :=
  rows.countP (fun r => isRef2Amount r.amount)

/-- `COUNT(CASE WHEN amount NOT IN (...) THEN 1 END)`. -/
def luckyDrawCountAgg (rows : List TsRow) : ℕ :=
  rows.countP (fun r => isDrawAmount r.amount)

/-- `COUNT(DISTINCT CASE WHEN amount IN (500, 1500) THEN to_user END)`. -/
def uniqueAddressCount (rows : List TsRow) : ℕ :=
  (((rows.filter (fun r => isClaimAmount r.amount)).map TsRow.toUser).dedup).length

/-- `COUNT(DISTINCT CASE WHEN amount NOT IN (...) THEN to_user END)`. -/
def luckyDrawAddressCount (rows : List TsRow) : ℕ :=
  (((rows.filter (fun r => isDrawAmount r.amount)).map TsRow.toUser).dedup).length

/-- The metric dict built by `_fetch_period_metrics_sql`.  Fields holding
Python values that can be either a float or `None` are `Option ℚ`
(`none` is Python `None`). -/
structure TsPeriodMetrics where
  totalTx : ℕ
  tsClaim : ℕ
  totalAmount : ℚ
  uniqueAddresses : ℕ
  meanClaims : Option ℚ
  wolfTx : ℤ
  oneRefTx : ℤ
  twoRefTx : ℤ
  luckyDraws : ℕ
  luckyDrawAmount : ℚ
  luckyDrawAddresses : ℕ
  revenue : ℚ
  shitCost : ℚ
  roi : ℚ

/-- `_fetch_period_metrics_sql` after the SQL aggregates are read back:
derived tiers `two_ref_tx = ref2`, `one_ref_tx = ref1 - ref2`,
`wolf_tx = ts_claim - ref1`; `shit_cost = total_amount * avg_price`;
`roi = revenue / shit_cost if shit_cost > 0 else 0.0`;
`meanClaims = ts_claim / unique_addresses if unique_addresses > 0 else 0.0`. -/
def tsPeriodMetrics (rows : List TsRow) (avgPrice : ℚ) : TsPeriodMetrics :=
  let tsClaim := tsClaimCount rows
  let totalAmount := (rows.map TsRow.amount).sum
  let uniqueAddresses := uniqueAddressCount rows
  let ref1 := ref1Count rows
  let ref2 := ref2Count rows
  let revenue := (rows.map TsRow.solSentToTreasury).sum
  let shitCost := totalAmount * avgPrice
  ⟨rows.length,
   tsClaim,
   totalAmount,
   uniqueAddresses,
   some (if 0 < uniqueAddresses then (tsClaim : ℚ) / (uniqueAddresses : ℚ) else 0),
   (tsClaim : ℤ) - (ref1 : ℤ),
   (ref1 : ℤ) - (ref2 : ℤ),
   (ref2 : ℤ),
   luckyDrawCountAgg rows,
   ((rows.filter (fun r => isDrawAmount r.amount)).map TsRow.amount).sum,
   luckyDrawAddressCount rows,
   revenue,
   shitCost,
   if 0 < shitCost then revenue / shitCost else 0⟩

/-! ## Generic log row (POS / Staking / ShitCode sheets)

One row of the cached log sheets, restricted to the columns the
calculators read: 'Receiver Address' / `to_user`, 'SHIT Sent', and
'SOL Received' / 'SOL_Received'. -/

structure LogRow where
  address : String
  shitSent : ℚ
  solReceived : ℚ
  deriving DecidableEq

/-- The metric dict built by `_compute_period_metrics` in
`backend/calculators/shitcode.py`; `avgClaimPerAddress` can be `None`. -/
structure ShitcodePeriodMetrics where
  claimCount : ℕ
  claimAmount : ℚ
  uniqueAddresses : ℕ
  avgClaimPerAddress : Option ℚ

/-- `_compute_period_metrics` of `backend/calculators/shitcode.py`:
empty frame gives the zero dict with `avgClaimPerAddress = None`;
otherwise `avg = claim_amount / unique_addresses if unique_addresses > 0
else None`. -/
def shitcodePeriodMetrics (df : List LogRow) : ShitcodePeriodMetrics :=
  if df.length = 0 then ⟨0, 0, 0, none⟩
  else
    let claimAmount := (df.map LogRow.shitSent).sum
    let u := ((df.map LogRow.address).dedup).length
    ⟨df.length, claimAmount, u,
     if 0 < u then some (claimAmount / (u : ℚ)) else none⟩

/-! ## Daily bucketizer

`apply_boundary` in `backend/calculators/revenue.py` (and the same lambda
in `_calculate_daily_data`, `backend/calculators/pos.py`):

    (ts - Timedelta(days=1)).strftime('%Y-%m-%d') if ts.hour < boundary_hour
    else ts.strftime('%Y-%m-%d')

A timestamp is `t` hours since the epoch; its hour-of-day is `t % 24` and
its calendar date (as days since the epoch) is `t / 24` (floor, which on ℤ
with positive divisor is what `/` computes). -/

/-- Business-day label (days since the epoch) assigned to timestamp `t`
under boundary hour `b`. -/
def applyBoundary (t b : ℤ) : ℤ :=
  if t % 24 < b then (t - 24) / 24 else t / 24

/-! ## TS anomaly rule engine
(`_detect_ts_anomalies_sql`, backend/calculators/anomaly.py) -/

/-- One emitted anomaly record (the formatted Chinese description string
is presentation only and is not modelled). -/
structure Finding where
  date : String
  address : String
  ftype : String
  severity : String
  luckyDraws : ℕ
  claims : ℕ
  deriving DecidableEq

/-- The combined medium-severity draw-logic predicate
`(claims < 5 and draws >= 1) or (5 <= claims < 10 and draws >= 2) or
(10 <= claims < 20 and draws == 3)`. -/
def isLogicError (claims draws : ℕ) : Bool :=
  (claims < 5 && draws ≥ 1) ||
  (5 ≤ claims && claims < 10 && draws ≥ 2) ||
  (10 ≤ claims && claims < 20 && draws == 3)

/-- The SQL `HAVING` clause selecting candidate entities. -/
def havingTs (claims draws : ℕ) : Bool :=
  draws > 3 || claims > 20 || isLogicError claims draws

/-- The per-entity rule evaluation of the Python loop: a `draws > 3` match
appends one high-severity finding and `continue`s; otherwise the over-claim
and logic-error rules are checked independently. -/
def tsEntityFindings (dateLabel addr : String) (claims draws : ℕ) : List Finding :=
  if 3 < draws then
    [⟨dateLabel, addr, "TS_LUCKY_DRAW_OVER", "high", draws, claims⟩]
  else
    (if 20 < claims then
      [⟨dateLabel, addr, "TS_OVER_CLAIM", "medium", draws, claims⟩]
     else []) ++
    (if isLogicError claims draws then
      [⟨dateLabel, addr, "TS_LOGIC_ERROR", "medium", draws, claims⟩]
     else [])

/-- `_detect_ts_anomalies_sql` applied to the per-address aggregate list
`(address, claims, draws)` returned by the SQL query. -/
def detectTsAnomalies (dateLabel : String) (aggs : List (String × ℕ × ℕ)) :
    List Finding :=
  (aggs.filter (fun a => havingTs a.2.1 a.2.2)).flatMap
    (fun a => tsEntityFindings dateLabel a.1 a.2.1 a.2.2)

/-- The `GROUP BY to_user` aggregation of the SQL query: one
`(address, claims, draws)` entry per distinct address. -/
def tsAggregates (rows : List TsRow) : List (String × ℕ × ℕ) :=
  ((rows.map TsRow.toUser).dedup).map (fun u =>
    (u,
     (rows.filter (fun r => r.toUser == u)).countP (fun r => isClaimAmount r.amount),
     (rows.filter (fun r => r.toUser == u)).countP (fun r => isDrawAmount r.amount)))

/-- Full TS anomaly detection for one day-aligned window of rows. -/
def detectTsAnomaliesFromRows (dateLabel : String) (rows : List TsRow) :
    List Finding :=
  detectTsAnomalies dateLabel (tsAggregates rows)

/-! ## Revenue composer (`backend/calculators/revenue.py`) -/

/-- Sum of the 'SOL Received' column of one source frame. -/
def sumSolReceived (df : List LogRow) : ℚ := (df.map LogRow.solReceived).sum

/-- The dict built by `_compute_period_metrics` in revenue.py. -/
structure RevenuePeriodMetrics where
  tsRevenue : ℚ
  posRevenue : ℚ
  stakingRevenue : ℚ
  shitCodeRevenue : ℚ
  totalRevenue : ℚ

/-- `_compute_period_metrics(df_ts, df_pos, df_staking, df_shitcode)`. -/
def revenuePeriodMetrics (dfTs dfPos dfStaking dfShitcode : List LogRow) :
    RevenuePeriodMetrics :=
  let t := sumSolReceived dfTs
  let p := sumSolReceived dfPos
  let s := sumSolReceived dfStaking
  let c := sumSolReceived dfShitcode
  ⟨t, p, s, c, t + p + s + c⟩

/-- Descending-by-amount order used by
`result.sort(key=lambda x: x['amount'], reverse=True)`. -/
def revByAmount : (String × ℚ) → (String × ℚ) → Prop := fun a b => b.2 ≤ a.2

instance : DecidableRel revByAmount :=
  fun a b => inferInstanceAs (Decidable (b.2 ≤ a.2))

instance : IsTotal (String × ℚ) revByAmount := ⟨fun a b => le_total b.2 a.2⟩

instance : IsTrans (String × ℚ) revByAmount :=
  ⟨fun _ _ _ h h2 => le_trans h2 h⟩

/-- The fixed `composition_data` list of `_calculate_composition`. -/
def compositionPairs (t p s c : ℚ) : List (String × ℚ) :=
  [("TS", t), ("POS", p), ("Staking", s), ("ShitCode", c)]

/-- Filter-the-positive then sort-descending step of
`_calculate_composition` (Python's sort is stable; tie order between
equal amounts is not relevant to any verified property). -/
def revenueCompositionOf (t p s c : ℚ) : List (String × ℚ) :=
  ((compositionPairs t p s c).filter (fun q => 0 < q.2)).insertionSort revByAmount

/-- `_calculate_composition(df_ts, df_pos, df_staking, df_shitcode)`. -/
def calculateComposition (dfTs dfPos dfStaking dfShitcode : List LogRow) :
    List (String × ℚ) :=
  let m := revenuePeriodMetrics dfTs dfPos dfStaking dfShitcode
  revenueCompositionOf m.tsRevenue m.posRevenue m.stakingRevenue m.shitCodeRevenue

/-! ## Ranking engine
(`_calculate_top_users` in backend/calculators/pos.py and
backend/calculators/shitcode.py — identical logic: group rows by address,
sum 'SHIT Sent' and count rows per address, sort descending by the sum,
truncate to 10, attach the masked address) -/

/-- `f"{addr[:4]}...{addr[-4:]}"`. -/
def maskAddress (addr : String) : String :=
  addr.take 4 ++ "..." ++ addr.takeRight 4

/-- One leaderboard entry (`address` is the masked display form). -/
structure TopUser where
  address : String
  fullAddress : String
  amountSent : ℚ
  txCount : ℕ
  deriving DecidableEq

/-- Per-address sum of 'SHIT Sent' (`groupby('Receiver Address')['SHIT Sent'].sum()`). -/
def userAmountSum (df : List LogRow) (u : String) : ℚ :=
  ((df.filter (fun r => r.address == u)).map LogRow.shitSent).sum

/-- Per-address row count (`groupby('Receiver Address').size()`). -/
def userTxCount (df : List LogRow) (u : String) : ℕ :=
  (df.filter (fun r => r.address == u)).length

/-- Descending order on the aggregated ranking key, as used by
`sort_values('shitSent', ascending=False)` (an unstable sort in pandas;
tie order is not relevant to any verified property). -/
def topUserOrd : TopUser → TopUser → Prop := fun a b => b.amountSent ≤ a.amountSent

instance : DecidableRel topUserOrd :=
  fun a b => inferInstanceAs (Decidable (b.amountSent ≤ a.amountSent))

instance : IsTotal TopUser topUserOrd := ⟨fun a b => le_total b.amountSent a.amountSent⟩

instance : IsTrans TopUser topUserOrd := ⟨fun _ _ _ h h2 => le_trans h2 h⟩

/-- `_calculate_top_users(df, top_n=10)`: empty frame gives `[]`,
otherwise group, aggregate, sort descending, truncate, mask. -/
def calculateTopUsers (df : List LogRow) : List TopUser :=
  if df.length = 0 then []
  else
    let stats := ((df.map LogRow.address).dedup).map
      (fun u => (⟨maskAddress u, u, userAmountSum df u, userTxCount df u⟩ : TopUser))
    (stats.insertionSort topUserOrd).take 10

/-! ## Theorems -/

/-- Claim C1: for every valid pair of civil dates with `s ≤ e`, the current
window is `[s@b - offset, (e+1)@b - offset)`, the previous window has
exactly the same length, ends exactly at the current window's start, and
the two windows never overlap. -/
theorem window_resolver_aligned (s e b utcOffset : ℤ) (hse : s ≤ e) :
    currentEnd e b utcOffset - currentStart s b utcOffset = periodLengthHours s e ∧
    prevEnd s b utcOffset - prevStart s e b utcOffset = periodLengthHours s e ∧
    prevEnd s b utcOffset = currentStart s b utcOffset ∧
    (∀ t : ℤ,
      ¬(inWindow (prevStart s e b utcOffset) (prevEnd s b utcOffset) t ∧
        inWindow (currentStart s b utcOffset) (currentEnd e b utcOffset) t)) := by
  refine ⟨?_, ?_, rfl, ?_⟩
  · simp only [currentEnd, currentStart, dayAtHour, periodLengthHours]
    ring
  · simp only [prevEnd, prevStart, currentStart, dayAtHour, periodLengthHours]
    ring
  · intro t ht
    simp only [inWindow, prevEnd, prevStart, currentStart, currentEnd, dayAtHour,
      periodLengthHours] at ht
    omega

/-- Witness for C1 at the concrete range 2 ≤ 5, boundary hour 8, offset 8. -/
theorem window_resolver_aligned_witness :
    prevEnd 2 8 8 = currentStart 2 8 8 ∧
    currentEnd 5 8 8 - currentStart 2 8 8 = periodLengthHours 2 5 :=
  ⟨(window_resolver_aligned 2 5 8 8 (by norm_num)).2.2.1,
   (window_resolver_aligned 2 5 8 8 (by norm_num)).1⟩

/-- Claim C2: every per-source `calc_delta` returns `None` when `prev`
is absent or `prev ≤ 0`, and exactly `(current - prev) / prev * 100`
when `prev > 0`; in particular `current = 0` with `prev > 0` gives `-100`. -/
theorem delta_null_safety (curr p : ℚ) :
    (tsCalcDelta curr none = none ∧ shitcodeCalcDelta curr none = none ∧
      defiCalcDelta curr none = none) ∧
    (p ≤ 0 →
      tsCalcDelta curr (some p) = none ∧ revenueCalcDelta curr p = none ∧
      posCalcDelta curr p = none ∧ stakingCalcDelta curr p = none ∧
      shitcodeCalcDelta curr (some p) = none ∧ defiCalcDelta curr (some p) = none) ∧
    (0 < p →
      tsCalcDelta curr (some p) = some ((curr - p) / p * 100) ∧
      revenueCalcDelta curr p = some ((curr - p) / p * 100) ∧
      posCalcDelta curr p = some ((curr - p) / p * 100) ∧
      stakingCalcDelta curr p = some ((curr - p) / p * 100) ∧
      shitcodeCalcDelta curr (some p) = some ((curr - p) / p * 100) ∧
      defiCalcDelta curr (some p) = some ((curr - p) / p * 100)) ∧
    (0 < p → tsCalcDelta 0 (some p) = some (-100)) := by
  refine ⟨⟨rfl, rfl, rfl⟩, ?_, ?_, ?_⟩
  · intro hp
    simp [tsCalcDelta, revenueCalcDelta, posCalcDelta, stakingCalcDelta,
      shitcodeCalcDelta, defiCalcDelta, hp]
  · intro hp
    have hp2 : ¬ p ≤ 0 := not_le.mpr hp
    simp [tsCalcDelta, revenueCalcDelta, posCalcDelta, stakingCalcDelta,
      shitcodeCalcDelta, defiCalcDelta, hp2]
  · intro hp
    have hp2 : ¬ p ≤ 0 := not_le.mpr hp
    have hne : p ≠ 0 := ne_of_gt hp
    simp only [tsCalcDelta, if_neg hp2, Option.some_inj]
    field_simp

/-- Witness for C2 at concrete inputs (5, -1), (5, 2) and (0, 2). -/
theorem delta_null_safety_witness :
    revenueCalcDelta 5 (-1) = none ∧ posCalcDelta 5 2 = some 150 ∧
    tsCalcDelta 0 (some 2) = some (-100) := by
  refine ⟨((delta_null_safety 5 (-1)).2.1 (by norm_num)).2.1, ?_,
    (delta_null_safety 0 2).2.2.2 (by norm_num)⟩
  have h := ((delta_null_safety 5 2).2.2.1 (by norm_num)).2.2.1
  rw [h]
  norm_num

/-- Claim C6: a row whose local hour-of-day is strictly below the boundary
hour is labeled with the calendar day before its date; a row at or past
the boundary keeps its own date. -/
theorem daily_bucketizer_label (d h b : ℤ) (h0 : 0 ≤ h) (h24 : h < 24) :
    (h < b → applyBoundary (24 * d + h) b = d - 1) ∧
    (b ≤ h → applyBoundary (24 * d + h) b = d) := by
  have hm : (24 * d + h) % 24 = h := by omega
  constructor
  · intro hb
    rw [applyBoundary, hm, if_pos hb]
    omega
  · intro hb
    rw [applyBoundary, hm, if_neg (not_lt.mpr hb)]
    omega

/-- Witness for C6: hour 5 before a 12:00 boundary goes to the previous
day; hour 13 stays on its own day. -/
theorem daily_bucketizer_label_witness :
    applyBoundary (24 * 20 + 5) 12 = 19 ∧ applyBoundary (24 * 20 + 13) 12 = 20 := by
  constructor
  · have h := (daily_bucketizer_label 20 5 12 (by norm_num) (by norm_num)).1 (by norm_num)
    rw [h]
    norm_num
  · exact (daily_bucketizer_label 20 13 12 (by norm_num) (by norm_num)).2 (by norm_num)

/-- Claim C3 counterexample: with a non-empty current vector, the key
`"b"` present only in the previous vector does NOT appear in the merged
output — `_merge_metrics` iterates `current.keys()`, not the union. -/
theorem merge_metrics_union_counterexample :
    ([("a", (1:ℚ))] : List (String × ℚ)) ≠ [] ∧
    "b" ∈ ([("a", (2:ℚ)), ("b", 5)] : List (String × ℚ)).map Prod.fst ∧
    "b" ∉ (mergeMetrics [("a", 1)] [("a", 2), ("b", 5)]).map Prod.fst := by
  refine ⟨by simp, by simp, ?_⟩
  simp [mergeMetrics]

/-- Claim C3 (amended): the merged output contains one
`{Current, Prev, Delta}` triple for every metric name of the CURRENT
vector (falling back to the previous vector's names only when the current
vector is empty), with a name missing from one vector treated as 0 there;
names exclusive to a non-empty run's previous vector are dropped. -/
theorem merge_metrics_keys (cur prev : List (String × ℚ)) (k : String) :
    ((mergeMetrics cur prev).map Prod.fst =
      if cur.isEmpty then prev.map Prod.fst else cur.map Prod.fst) ∧
    (k ∈ (if cur.isEmpty then prev.map Prod.fst else cur.map Prod.fst) →
      (k, dictGetD cur k, dictGetD prev k,
        tsCalcDelta (dictGetD cur k) (some (dictGetD prev k))) ∈ mergeMetrics cur prev) := by
  constructor
  · simp [mergeMetrics, List.map_map, Function.comp_def]
  · intro hk
    simp only [mergeMetrics]
    exact List.mem_map_of_mem _ hk

/-- Witness for C3 (amended) at a concrete pair of vectors: the key `"a"`
of the current vector appears with current 1, prev 2, delta -50%. -/
theorem merge_metrics_keys_witness :
    ("a", (1:ℚ), (2:ℚ), some ((-50):ℚ)) ∈
      mergeMetrics [("a", 1)] [("a", 2), ("b", 5)] := by
  have h := (merge_metrics_keys [("a", 1)] [("a", 2), ("b", 5)] "a").2 (by simp)
  have e1 : dictGetD [("a", (1:ℚ))] "a" = 1 := rfl
  have e2 : dictGetD [("a", (2:ℚ)), ("b", 5)] "a" = 2 := rfl
  rw [e1, e2] at h
  have e3 : tsCalcDelta (1:ℚ) (some 2) = some (-50) := by
    simp only [tsCalcDelta]
    norm_num
  rw [e3] at h
  exact h

/-- Claim C4 counterexample: a window holding one lucky-draw row has
`uniqueAddresses = 0`, yet `meanClaims` is the float `0.0`, not `None` —
the TS average-claims-per-entity ratio does not use the null convention. -/
theorem ratio_guard_counterexample :
    (tsPeriodMetrics [⟨"addr1", 777, 0⟩] 1).uniqueAddresses = 0 ∧
    (tsPeriodMetrics [⟨"addr1", 777, 0⟩] 1).meanClaims = some 0 ∧
    (tsPeriodMetrics [⟨"addr1", 777, 0⟩] 1).meanClaims ≠ none := by
  refine ⟨?_, ?_, ?_⟩
  · decide
  · decide
  · decide

/-- Claim C4 (amended): on a zero denominator the TS
average-claims-per-entity ratio `meanClaims` evaluates to `0.0` (not
null), the ShitCode `avgClaimPerAddress` ratio evaluates to null, and the
TS cost/ROI ratio evaluates to `0.0`. -/
theorem ratio_guard_amended (rows : List TsRow) (scRows : List LogRow) (avgPrice : ℚ) :
    ((tsPeriodMetrics rows avgPrice).uniqueAddresses = 0 →
      (tsPeriodMetrics rows avgPrice).meanClaims = some 0) ∧
    ((tsPeriodMetrics rows avgPrice).shitCost ≤ 0 →
      (tsPeriodMetrics rows avgPrice).roi = 0) ∧
    ((shitcodePeriodMetrics scRows).uniqueAddresses = 0 →
      (shitcodePeriodMetrics scRows).avgClaimPerAddress = none) := by
  refine ⟨?_, ?_, ?_⟩
  · intro h
    simp only [tsPeriodMetrics] at h ⊢
    rw [if_neg (by omega)]
  · intro h
    simp only [tsPeriodMetrics] at h ⊢
    rw [if_neg (not_lt.mpr h)]
  · intro h
    by_cases hdf : scRows.length = 0
    · simp [shitcodePeriodMetrics, hdf]
    · simp only [shitcodePeriodMetrics, if_neg hdf] at h ⊢
      rw [if_neg (by omega)]

/-- Witness for C4 (amended) on the empty TS window with average price 1
and the empty ShitCode window. -/
theorem ratio_guard_amended_witness :
    (tsPeriodMetrics [] 1).meanClaims = some 0 ∧
    (tsPeriodMetrics [] 1).roi = 0 ∧
    (shitcodePeriodMetrics []).avgClaimPerAddress = none := by
  have h := ratio_guard_amended [] [] 1
  refine ⟨h.1 (by decide), h.2.1 ?_, h.2.2 (by decide)⟩
  show ((List.map TsRow.amount []).sum * 1 : ℚ) ≤ 0
  norm_num

/-- Claim C5: the derived tier counts of the reward/claim aggregator
always satisfy `twoRefTx + oneRefTx + wolfTx = tsClaim` — the
containment-chain subtractions telescope back to the normal-claim total. -/
theorem tier_containment_identity (rows : List TsRow) (avgPrice : ℚ) :
    (tsPeriodMetrics rows avgPrice).twoRefTx + (tsPeriodMetrics rows avgPrice).oneRefTx +
      (tsPeriodMetrics rows avgPrice).wolfTx = ((tsPeriodMetrics rows avgPrice).tsClaim : ℤ) := by
  simp only [tsPeriodMetrics]
  ring

/-- The Boolean logic-error rule in propositional form. -/
theorem isLogicError_iff (claims draws : ℕ) :
    isLogicError claims draws = true ↔
      (claims < 5 ∧ 1 ≤ draws) ∨ (5 ≤ claims ∧ claims < 10 ∧ 2 ≤ draws) ∨
      (10 ≤ claims ∧ claims < 20 ∧ draws = 3) := by
  simp only [isLogicError, Bool.or_eq_true, Bool.and_eq_true, decide_eq_true_eq,
    beq_iff_eq]
  omega

/-- Per entity and day, the TS rule loop emits at most one finding: the
high-severity branch short-circuits, and the two medium rules are
mutually exclusive (`claims > 20` versus `claims < 20`). -/
theorem tsEntityFindings_length_le_one (dl a : String) (claims draws : ℕ) :
    (tsEntityFindings dl a claims draws).length ≤ 1 := by
  simp only [tsEntityFindings]
  split
  · simp
  · by_cases h20 : 20 < claims
    · have hlog : ¬ isLogicError claims draws = true := by
        rw [isLogicError_iff]
        omega
      rw [if_pos h20, if_neg hlog]
      simp
    · rw [if_neg h20]
      split <;> simp

/-- Every finding emitted for an aggregate entry carries that entry's
address. -/
theorem tsEntityFindings_address (dl a : String) (claims draws : ℕ) (f : Finding)
    (hf : f ∈ tsEntityFindings dl a claims draws) : f.address = a := by
  simp only [tsEntityFindings] at hf
  split at hf
  · simp only [List.mem_singleton] at hf
    rw [hf]
  · rcases List.mem_append.mp hf with h1 | h1 <;> split at h1 <;>
      simp only [List.mem_singleton, List.not_mem_nil] at h1 <;> rw [h1]

/-- Every detected finding's address is one of the aggregate keys. -/
theorem mem_detect_address (dl : String) (aggs : List (String × ℕ × ℕ)) (f : Finding)
    (hf : f ∈ detectTsAnomalies dl aggs) : f.address ∈ aggs.map Prod.fst := by
  simp only [detectTsAnomalies, List.mem_flatMap] at hf
  obtain ⟨a, ha, hfa⟩ := hf
  rw [tsEntityFindings_address dl a.1 a.2.1 a.2.2 f hfa]
  exact List.mem_map_of_mem Prod.fst (List.mem_of_mem_filter ha)

/-- Unfolding of the detector over one more aggregate entry. -/
theorem detect_cons (dl : String) (a : String × ℕ × ℕ) (rest : List (String × ℕ × ℕ)) :
    detectTsAnomalies dl (a :: rest) =
      (if havingTs a.2.1 a.2.2 then tsEntityFindings dl a.1 a.2.1 a.2.2 else []) ++
        detectTsAnomalies dl rest := by
  simp only [detectTsAnomalies, List.filter_cons]
  split <;> simp

/-- Claim C7: whenever an entity's day aggregate has `draws > 3` (e.g. 4
draws and 15 claims), the detector emits for that entity exactly one
finding: the high-severity `TS_LUCKY_DRAW_OVER` one; no over-claim or
logic-error finding is added for it. -/
theorem draw_cap_short_circuit (dl : String) (aggs : List (String × ℕ × ℕ))
    (u : String) (claims draws : ℕ) (hnd : (aggs.map Prod.fst).Nodup)
    (hmem : (u, claims, draws) ∈ aggs) (hd : 3 < draws) :
    (detectTsAnomalies dl aggs).filter (fun f => f.address == u) =
      [⟨dl, u, "TS_LUCKY_DRAW_OVER", "high", draws, claims⟩] := by
  induction aggs with
  | nil => cases hmem
  | cons a rest ih =>
    simp only [List.map_cons] at hnd
    obtain ⟨hna, hrest⟩ := List.nodup_cons.mp hnd
    rw [detect_cons, List.filter_append]
    rcases List.mem_cons.mp hmem with heq | hmem2
    · obtain rfl := heq.symm
      have hhav : havingTs claims draws = true := by
        simp only [havingTs, Bool.or_eq_true, decide_eq_true_eq]
        omega
      rw [if_pos hhav]
      have hef : tsEntityFindings dl u claims draws =
          [⟨dl, u, "TS_LUCKY_DRAW_OVER", "high", draws, claims⟩] := by
        simp only [tsEntityFindings, if_pos hd]
      rw [hef]
      have hrestnil : (detectTsAnomalies dl rest).filter (fun f => f.address == u) = [] := by
        rw [List.filter_eq_nil_iff]
        intro f hf
        have haddr := mem_detect_address dl rest f hf
        have hne : f.address ≠ u := fun he => hna (he ▸ haddr)
        simp [hne]
      rw [hrestnil]
      simp
    · have hu_mem : u ∈ rest.map Prod.fst := List.mem_map_of_mem Prod.fst hmem2
      have hu_ne : a.1 ≠ u := fun he => hna (he ▸ hu_mem)
      have h1 : (if havingTs a.2.1 a.2.2 = true then
          tsEntityFindings dl a.1 a.2.1 a.2.2 else []).filter
            (fun f => f.address == u) = [] := by
        split
        · rw [List.filter_eq_nil_iff]
          intro f hf
          have := tsEntityFindings_address dl a.1 a.2.1 a.2.2 f hf
          simp [this, hu_ne]
        · rfl
      rw [h1, List.nil_append]
      exact ih hrest hmem2

/-- Witness for C7: a single entity aggregate with 15 claims and 4 draws
produces exactly the one high-severity draw-cap finding. -/
theorem draw_cap_short_circuit_witness :
    (detectTsAnomalies "2025-06-01" [("addr1", 15, 4)]).filter
        (fun f => f.address == "addr1") =
      [⟨"2025-06-01", "addr1", "TS_LUCKY_DRAW_OVER", "high", 4, 15⟩] :=
  draw_cap_short_circuit "2025-06-01" [("addr1", 15, 4)] "addr1" 15 4
    (by decide) (by decide) (by decide)

/-- When the aggregate keys are distinct, the detected findings carry
pairwise distinct addresses. -/
theorem detect_addresses_nodup (dl : String) (aggs : List (String × ℕ × ℕ))
    (h : (aggs.map Prod.fst).Nodup) :
    ((detectTsAnomalies dl aggs).map Finding.address).Nodup := by
  induction aggs with
  | nil => simp [detectTsAnomalies]
  | cons a rest ih =>
    simp only [List.map_cons] at h
    obtain ⟨hna, hrest⟩ := List.nodup_cons.mp h
    rw [detect_cons, List.map_append]
    refine List.Nodup.append ?_ (ih hrest) ?_
    · split
      · have hlen := tsEntityFindings_length_le_one dl a.1 a.2.1 a.2.2
        rcases hef : tsEntityFindings dl a.1 a.2.1 a.2.2 with _ | ⟨x, _ | ⟨y, t⟩⟩
        · simp
        · simp
        · rw [hef] at hlen
          simp at hlen
      · simp
    · intro x hx1 hx2
      obtain ⟨f, hf, rfl⟩ := List.mem_map.mp hx2
      have hfr := mem_detect_address dl rest f hf
      obtain ⟨g, hg, hgx⟩ := List.mem_map.mp hx1
      have hga : g.address = a.1 := by
        split at hg
        · exact tsEntityFindings_address dl a.1 a.2.1 a.2.2 g hg
        · cases hg
      rw [← hgx, hga] at hfr
      exact hna hfr

/-- Claim C10: the TS anomaly detector never emits two findings for the
same entity on one day — the draw-cap branch short-circuits and the two
medium rules are mutually exclusive, so the findings' addresses are
pairwise distinct. -/
theorem ts_findings_at_most_one_per_entity (dl : String) (rows : List TsRow) :
    ((detectTsAnomaliesFromRows dl rows).map Finding.address).Nodup := by
  apply detect_addresses_nodup
  simp only [tsAggregates, List.map_map, Function.comp_def]
  simpa using (rows.map TsRow.toUser).nodup_dedup

/-- Claim C8: the Revenue Composer's total is the exact sum of the four
per-source revenues, and its composition list is sorted descending by
amount and contains exactly the `{source, amount}` pairs with positive
amount; for revenues [100, 0, 50, 0] it is `[(TS, 100), (Staking, 50)]`. -/
theorem revenue_composition_spec (dfTs dfPos dfStaking dfShitcode : List LogRow) :
    ((revenuePeriodMetrics dfTs dfPos dfStaking dfShitcode).totalRevenue =
      (revenuePeriodMetrics dfTs dfPos dfStaking dfShitcode).tsRevenue +
      (revenuePeriodMetrics dfTs dfPos dfStaking dfShitcode).posRevenue +
      (revenuePeriodMetrics dfTs dfPos dfStaking dfShitcode).stakingRevenue +
      (revenuePeriodMetrics dfTs dfPos dfStaking dfShitcode).shitCodeRevenue) ∧
    List.Sorted revByAmount (calculateComposition dfTs dfPos dfStaking dfShitcode) ∧
    (∀ q : String × ℚ,
      q ∈ calculateComposition dfTs dfPos dfStaking dfShitcode ↔
        q ∈ compositionPairs (sumSolReceived dfTs) (sumSolReceived dfPos)
            (sumSolReceived dfStaking) (sumSolReceived dfShitcode) ∧ 0 < q.2) ∧
    revenueCompositionOf 100 0 50 0 = [("TS", 100), ("Staking", 50)] := by
  refine ⟨rfl, ?_, ?_, ?_⟩
  · exact List.sorted_insertionSort revByAmount _
  · intro q
    simp [calculateComposition, revenueCompositionOf, revenuePeriodMetrics,
      List.mem_insertionSort, List.mem_filter]
  · decide

/-- Claim C9: the ranking engine returns `min(distinct_entities, 10)`
entries, sorted descending by the aggregated key, every entry masked as
`first4...last4` of its full identifier, and the empty row set gives the
empty list. -/
theorem ranking_engine_spec (df : List LogRow) :
    (calculateTopUsers df).length = min ((df.map LogRow.address).dedup.length) 10 ∧
    List.Sorted topUserOrd (calculateTopUsers df) ∧
    (∀ u ∈ calculateTopUsers df,
      u.address = u.fullAddress.take 4 ++ "..." ++ u.fullAddress.takeRight 4) ∧
    (df = [] → calculateTopUsers df = []) := by
  refine ⟨?_, ?_, ?_, ?_⟩
  · by_cases hdf : df.length = 0
    · have hnil : df = [] := List.length_eq_zero.mp hdf
      subst hnil
      simp [calculateTopUsers]
    · simp only [calculateTopUsers, if_neg hdf]
      rw [List.length_take, List.length_insertionSort, List.length_map]
      exact Nat.min_comm 10 _
  · by_cases hdf : df.length = 0
    · simp [calculateTopUsers, hdf]
    · simp only [calculateTopUsers, if_neg hdf]
      exact List.Pairwise.sublist (List.take_sublist 10 _)
        (List.sorted_insertionSort topUserOrd _)
  · intro u hu
    by_cases hdf : df.length = 0
    · simp [calculateTopUsers, hdf] at hu
    · simp only [calculateTopUsers, if_neg hdf] at hu
      have hu2 := List.mem_of_mem_take hu
      rw [List.mem_insertionSort] at hu2
      obtain ⟨addr0, _, rfl⟩ := List.mem_map.mp hu2
      rfl
  · intro h
    subst h
    simp [calculateTopUsers]

/-- Witness for C9: the empty case and the masking of a concrete
9-character address on a one-row set. -/
theorem ranking_engine_spec_witness :
    calculateTopUsers [] = [] ∧
    ((⟨maskAddress "ABCDEFGHI", "ABCDEFGHI",
        userAmountSum [⟨"ABCDEFGHI", 7, 2⟩] "ABCDEFGHI",
        userTxCount [⟨"ABCDEFGHI", 7, 2⟩] "ABCDEFGHI"⟩ : TopUser)).address =
      "ABCDEFGHI".take 4 ++ "..." ++ "ABCDEFGHI".takeRight 4 := by
  constructor
  · exact (ranking_engine_spec []).2.2.2 rfl
  · exact (ranking_engine_spec [⟨"ABCDEFGHI", 7, 2⟩]).2.2.1 _ (List.Mem.head _)
